import Mathlib

/-!
Shallow embedding of the caching / pagination-aggregation core of the
discogs-mcp repository (src/clients/cachedDiscogs.ts), together with a
model of the SmartCache primitive it consumes (src/utils/cache.ts is
imported by cachedDiscogs.ts but is not part of the snapshot; where a
claim depends on it, the definition is modelled from the spec and marked
as such in its doc comment).

Conventions of the embedding:
- JavaScript numbers holding integer quantities (pages, counts, years)
  become Nat; the rating field and derived averages become Rat, since
  averages are fractional.
- JavaScript objects Record(string, number) used as breakdown maps become
  functions String -> Nat updated pointwise, mirroring the source's
  incremental increments.
- Optional arrays accessed as (xs || []) become plain lists, with the
  absent case represented by the empty list.
- The truthiness test if (release.year) becomes year != 0 (0 and a
  missing year are both falsy in the source).
-/

/-- Pagination metadata of a Discogs collection response
(src/clients/discogs.ts shape, as used by cachedDiscogs.ts).
The urls field of the source is an opaque record never read by the
aggregation code and is omitted. -/
structure Pagination where
  page : Nat
  pages : Nat
  per_page : Nat
  items : Nat
  deriving Repr, DecidableEq

/-- A format entry of basic_information (only the name field is read). -/
structure DiscogsFormat where
  name : String
  deriving Repr, DecidableEq

/-- A label entry of basic_information (only the name field is read). -/
structure DiscogsLabel where
  name : String
  deriving Repr, DecidableEq

/-- The basic_information sub-record of a collection item, restricted to
the fields computeStatsFromReleases reads: year, genres, formats, labels. -/
structure BasicInformation where
  year : Nat
  genres : List String
  formats : List DiscogsFormat
  labels : List DiscogsLabel
  deriving Repr, DecidableEq

/-- One item of a user's collection (DiscogsCollectionItem), restricted to
the fields the aggregation and stats code reads. -/
structure DiscogsCollectionItem where
  rating : Rat
  basic_information : BasicInformation
  deriving Repr, DecidableEq

/-- A page of collection results (DiscogsCollectionResponse). -/
structure DiscogsCollectionResponse where
  pagination : Pagination
  releases : List DiscogsCollectionItem
  deriving Repr, DecidableEq

/-- The stats record produced by computeStatsFromReleases
(DiscogsCollectionStats). Breakdown maps are total functions from keys to
counts, absent keys mapping to 0 exactly as the source's
(m[k] || 0) reads do. -/
structure DiscogsCollectionStats where
  totalReleases : Nat
  totalValue : Rat
  genreBreakdown : String → Nat
  decadeBreakdown : String → Nat
  formatBreakdown : String → Nat
  labelBreakdown : String → Nat
  averageRating : Rat
  ratedReleases : Nat

/-- One increment of a breakdown map: m[k] = (m[k] || 0) + 1. -/
def bump (m : String → Nat) (k : String) : String → Nat :=
  fun s => if s = k then m k + 1 else m s

/-- The decade bucket string of a year:
Math.floor(year / 10) * 10 followed by the letter s
(template literal in the source). -/
def decadeKey (year : Nat) : String :=
  toString (year / 10 * 10) ++ "s"

/-- Mutable accumulator threaded through the for-loop of
computeStatsFromReleases: the four breakdown maps plus the running
totalRating / ratedCount locals. -/
structure StatsAcc where
  genreBreakdown : String → Nat
  decadeBreakdown : String → Nat
  formatBreakdown : String → Nat
  labelBreakdown : String → Nat
  totalRating : Rat
  ratedCount : Nat

/-- Body of the for-loop of computeStatsFromReleases for one item:
increment genre counts for each genre, the decade bucket when year is
truthy, format counts for each format name, label counts for each label
name, and accumulate positive ratings. -/
def processItem (acc : StatsAcc) (item : DiscogsCollectionItem) : StatsAcc :=
  let r := item.basic_information
  let a1 := { acc with genreBreakdown := r.genres.foldl bump acc.genreBreakdown }
  let a2 := if r.year ≠ 0 then
      { a1 with decadeBreakdown := bump a1.decadeBreakdown (decadeKey r.year) }
    else a1
  let a3 := { a2 with formatBreakdown := (r.formats.map DiscogsFormat.name).foldl bump a2.formatBreakdown }
  let a4 := { a3 with labelBreakdown := (r.labels.map DiscogsLabel.name).foldl bump a3.labelBreakdown }
  if 0 < item.rating then
    { a4 with totalRating := a4.totalRating + item.rating, ratedCount := a4.ratedCount + 1 }
  else a4

/-- Pure stats computation over an array of collection items
(CachedDiscogsClient.computeStatsFromReleases). totalValue is initialized
to 0 and never updated by the loop, exactly as in the source. -/
def computeStatsFromReleases (releases : List DiscogsCollectionItem) : DiscogsCollectionStats :=
  let acc := releases.foldl processItem
    { genreBreakdown := fun _ => 0
      decadeBreakdown := fun _ => 0
      formatBreakdown := fun _ => 0
      labelBreakdown := fun _ => 0
      totalRating := 0
      ratedCount := 0 }
  { totalReleases := releases.length
    totalValue := 0
    genreBreakdown := acc.genreBreakdown
    decadeBreakdown := acc.decadeBreakdown
    formatBreakdown := acc.formatBreakdown
    labelBreakdown := acc.labelBreakdown
    averageRating := if 0 < acc.ratedCount then acc.totalRating / (acc.ratedCount : Rat) else 0
    ratedReleases := acc.ratedCount }

/-!
Embedding of the fetch closure of getCompleteCollection
(src/clients/cachedDiscogs.ts lines 217-256): a do-while loop fetching
page 1, then pages 2.. while currentPage <= totalPages, where totalPages
is re-read each iteration as min(pageResult.pagination.pages, maxPages).

The loop is instrumented with a trace of request/response events so that
temporal claims about the order of page fetches are statable: each
iteration appends a req event for the page it is about to await and a
resp event once the page's response has been received, in the execution
order of the sequential source.
-/

/-- A page-fetch event observed at the upstream collaborator: a request
for a page being issued, or its response being received. -/
inductive PageEv where
  | req (page : Nat)
  | resp (page : Nat)
  deriving Repr, DecidableEq

/-- Pairs each fetched page with its two trace events, in order. -/
def evPair (p : Nat) : List PageEv := [PageEv.req p, PageEv.resp p]

/-- The do-while loop of getCompleteCollection's fetch closure. State:
the page about to be fetched (currentPage), the items accumulated so far
(allReleases), and the event trace. Each iteration fetches currentPage,
appends its releases, recomputes totalPages = min(reported pages,
maxPages), increments currentPage, and continues while
currentPage <= totalPages. Returns (allReleases, final totalPages,
trace). -/
def fetchPagesGo (upstream : Nat → DiscogsCollectionResponse) (maxPages : Nat)
    (currentPage : Nat) (acc : List DiscogsCollectionItem) (tr : List PageEv) :
    List DiscogsCollectionItem × Nat × List PageEv :=
  let pageResult := upstream currentPage
  let acc2 := acc ++ pageResult.releases
  let tr2 := tr ++ evPair currentPage
  if h : currentPage + 1 ≤ min pageResult.pagination.pages maxPages then
    fetchPagesGo upstream maxPages (currentPage + 1) acc2 tr2
  else
    (acc2, min pageResult.pagination.pages maxPages, tr2)
termination_by maxPages + 1 - currentPage
decreasing_by
  omega

/-- Truncation test of the source (line 240):
wasTruncated = totalPages < (allReleases.length > 0 ?
Math.ceil(allReleases.length / 100) : 1). Math.ceil(n / 100) on a
nonnegative integer n equals (n + 99) / 100 in integer arithmetic. -/
def wasTruncated (totalPages itemCount : Nat) : Bool :=
  totalPages < (if 0 < itemCount then (itemCount + 99) / 100 else 1)

/-- The complete fetch closure of getCompleteCollection, executed by
SmartCache on a cache miss: run the page loop from page 1, compute the
wasTruncated log-flag, and return the response assembled at lines
246-255 with pagination rewritten (pages = final totalPages, page = 1,
per_page = items = total item count). The source only logs wasTruncated;
the returned object has no truncated field. The flag and the event trace
are returned alongside the response for the statements below. -/
def fetchAllPages (upstream : Nat → DiscogsCollectionResponse) (maxPages : Nat) :
    DiscogsCollectionResponse × Bool × List PageEv :=
  let res := fetchPagesGo upstream maxPages 1 [] []
  let allReleases := res.1
  let totalPages := res.2.1
  ({ pagination :=
      { pages := totalPages
        page := 1
        per_page := allReleases.length
        items := allReleases.length }
     releases := allReleases },
   wasTruncated totalPages allReleases.length,
   res.2.2)

/-- A well-behaved upstream source: every page request is answered with
the same reported total page count and item total, per_page = 100 as
requested by the loop, and the page's items given by pageItems. -/
def mkUpstream (pageItems : Nat → List DiscogsCollectionItem)
    (reportedPages reportedItems : Nat) : Nat → DiscogsCollectionResponse :=
  fun page =>
    { pagination :=
        { page := page
          pages := reportedPages
          per_page := 100
          items := reportedItems }
      releases := pageItems page }

/-!
Fallible variant of the page loop: the source awaits
this.searchCollection(...) inside the loop, and a rejected promise
propagates out of the fetch closure unchanged. The upstream collaborator
is modelled as returning Except, and the loop short-circuits on the
first error.
-/

/-- The do-while loop of the fetch closure over a fallible upstream: an
upstream error aborts the whole aggregation with that error unchanged. -/
def fetchPagesGoE {ε : Type} (upstream : Nat → Except ε DiscogsCollectionResponse)
    (maxPages currentPage : Nat) (acc : List DiscogsCollectionItem) :
    Except ε (List DiscogsCollectionItem × Nat) :=
  match upstream currentPage with
  | Except.error e => Except.error e
  | Except.ok pageResult =>
    let acc2 := acc ++ pageResult.releases
    if h : currentPage + 1 ≤ min pageResult.pagination.pages maxPages then
      fetchPagesGoE upstream maxPages (currentPage + 1) acc2
    else
      Except.ok (acc2, min pageResult.pagination.pages maxPages)
termination_by maxPages + 1 - currentPage
decreasing_by
  omega

/-- The fallible fetch closure of getCompleteCollection: run the page
loop from page 1 and assemble the rewritten response, or propagate the
first upstream error unchanged. -/
def fetchAllPagesE {ε : Type} (upstream : Nat → Except ε DiscogsCollectionResponse)
    (maxPages : Nat) : Except ε DiscogsCollectionResponse :=
  match fetchPagesGoE upstream maxPages 1 [] with
  | Except.error e => Except.error e
  | Except.ok (allReleases, totalPages) =>
    Except.ok
      { pagination :=
          { pages := totalPages
            page := 1
            per_page := allReleases.length
            items := allReleases.length }
        releases := allReleases }

/-- An upstream that answers pages other than failAt like
mkUpstream pageItems reportedPages reportedItems, and rejects the fetch
of page failAt with error e. -/
def failingUpstream {ε : Type} (pageItems : Nat → List DiscogsCollectionItem)
    (reportedPages reportedItems failAt : Nat) (e : ε) :
    Nat → Except ε DiscogsCollectionResponse :=
  fun page =>
    if page = failAt then Except.error e
    else Except.ok (mkUpstream pageItems reportedPages reportedItems page)

/-!
Model of SmartCache (src/utils/cache.ts). That file is imported by
cachedDiscogs.ts but is not part of the snapshot, so the definitions
below are modelled from the spec rather than translated from source;
each doc comment records this.
-/

/-- Modelled from the spec: the CacheStore contents visible to
SmartCache.getOrFetch, as an association list from full cache keys to
stored values (src/utils/cache.ts is missing from the snapshot; spec
section 4.2 steps 3-5). Freshness is abstracted to presence: a present
entry stands for a present-and-unexpired one, which is what the
failure-path claims need. -/
structure CacheState (V : Type) where
  store : List (String × V)

/-- Modelled from the spec: one sequential execution of
SmartCache.getOrFetch for a fallible fetch function (spec section 4.2).
On a hit the cached value is returned and nothing is fetched; on a miss
the fetch function runs; on success its value is persisted under the
full key; on failure nothing is written to the store and the error is
returned unchanged (steps 4-5). -/
def getOrFetch {ε V : Type} (st : CacheState V) (fullKey : String)
    (fetchFn : Unit → Except ε V) : Except ε V × CacheState V :=
  match st.store.find? (fun kv => kv.1 = fullKey) with
  | some kv => (Except.ok kv.2, st)
  | none =>
    match fetchFn () with
    | Except.ok v => (Except.ok v, ⟨(fullKey, v) :: st.store⟩)
    | Except.error e => (Except.error e, st)

/-!
Model of the in-process pending-request registry of SmartCache for the
single-flight law. Concurrency is modelled by interleaving: each call
to getOrFetch that reaches the registry performs its check-and-register
step as one atomic action (the spec's "atomically register a new pending
future"), and the order in which the N concurrent callers reach the
registry is an arbitrary list. The scenario of the law fixes a cache
miss and places every arrival before the fetch settles.
-/

/-- Modelled from the spec: the per-key coalescing state of SmartCache
(spec sections 4.2 and 5; src/utils/cache.ts is missing from the
snapshot). pending holds the id of the in-flight future for the key, if
any; nextId supplies fresh future ids; fetchCount counts invocations of
the underlying fetch function; joined records which future each caller
awaits; resolved gives the value each settled future delivered. -/
structure FlightState (V : Type) where
  pending : Option Nat
  nextId : Nat
  fetchCount : Nat
  joined : List (Nat × Nat)
  resolved : Nat → Option V

/-- Modelled from the spec: the initial per-key state — no pending
future, no fetch issued, no caller joined, nothing resolved. -/
def flightInit (V : Type) : FlightState V :=
  { pending := none
    nextId := 0
    fetchCount := 0
    joined := []
    resolved := fun _ => none }

/-- Modelled from the spec: a caller reaching the registry under a cache
miss (spec section 4.2 steps 2-3). If a future is already pending for
the key, the caller joins it and no fetch is issued; otherwise the
caller atomically registers a fresh pending future, the fetch function
is invoked (counted in fetchCount), and the caller awaits the new
future. -/
def arrive {V : Type} (st : FlightState V) (caller : Nat) : FlightState V :=
  match st.pending with
  | some fid => { st with joined := (caller, fid) :: st.joined }
  | none =>
    { pending := some st.nextId
      nextId := st.nextId + 1
      fetchCount := st.fetchCount + 1
      joined := (caller, st.nextId) :: st.joined
      resolved := st.resolved }

/-- Modelled from the spec: the in-flight fetch settling with value v
(spec section 4.2 step 4): the pending future is resolved with v and
removed from the registry. -/
def settle {V : Type} (st : FlightState V) (v : V) : FlightState V :=
  match st.pending with
  | some fid =>
    { st with
      pending := none
      resolved := fun i => if i = fid then some v else st.resolved i }
  | none => st

/-- The result a caller observes: the resolved value of the future it
joined, if it joined one and that future has settled. -/
def callerResult {V : Type} (st : FlightState V) (caller : Nat) : Option V :=
  match st.joined.find? (fun cf => cf.1 = caller) with
  | some cf => st.resolved cf.2
  | none => none

/-!
Specification-side counting functions for the stats claims (refinement
targets written from the spec's words, to be compared with the fold in
computeStatsFromReleases).
-/

/-- Number of occurrences of genre g across all items (an item with the
genre listed twice contributes twice, per tag occurrence). -/
def genreOccurrences (l : List DiscogsCollectionItem) (g : String) : Nat :=
  (l.map (fun i => i.basic_information.genres.count g)).sum

/-- Number of occurrences of format name f across all items. -/
def formatOccurrences (l : List DiscogsCollectionItem) (f : String) : Nat :=
  (l.map (fun i => (i.basic_information.formats.map DiscogsFormat.name).count f)).sum

/-- Number of occurrences of label name n across all items. -/
def labelOccurrences (l : List DiscogsCollectionItem) (n : String) : Nat :=
  (l.map (fun i => (i.basic_information.labels.map DiscogsLabel.name).count n)).sum

/-- Number of items with a truthy year whose decade bucket is d. -/
def decadeCount (l : List DiscogsCollectionItem) (d : String) : Nat :=
  l.countP (fun i =>
    decide (i.basic_information.year ≠ 0 ∧ decadeKey i.basic_information.year = d))

/-- Number of items carrying a strictly positive rating. -/
def ratedCountOf (l : List DiscogsCollectionItem) : Nat :=
  l.countP (fun i => decide (0 < i.rating))

/-- Sum of the strictly positive ratings of the items. -/
def ratedSumOf (l : List DiscogsCollectionItem) : Rat :=
  ((l.filter (fun i => decide (0 < i.rating))).map DiscogsCollectionItem.rating).sum

/-- Folding bump over a list of keys adds, at every key, the number of
occurrences of that key in the list. -/
theorem foldl_bump_apply (ks : List String) :
    ∀ (m : String → Nat) (g : String), (ks.foldl bump m) g = m g + ks.count g := by
  induction ks with
  | nil => intro m g; simp
  | cons k ks ih =>
    intro m g
    by_cases h : g = k
    · subst h
      simp [List.foldl_cons, ih, bump, List.count_cons]
      omega
    · simp [List.foldl_cons, ih, bump, h, List.count_cons]

/-- The genre map after one loop iteration. -/
theorem processItem_genre (acc : StatsAcc) (i : DiscogsCollectionItem) :
    (processItem acc i).genreBreakdown =
      i.basic_information.genres.foldl bump acc.genreBreakdown := by
  unfold processItem
  dsimp only
  split_ifs <;> rfl

/-- The decade map after one loop iteration: incremented at the item's
decade bucket when its year is truthy, unchanged otherwise. -/
theorem processItem_decade (acc : StatsAcc) (i : DiscogsCollectionItem) :
    (processItem acc i).decadeBreakdown =
      if i.basic_information.year ≠ 0 then
        bump acc.decadeBreakdown (decadeKey i.basic_information.year)
      else acc.decadeBreakdown := by
  unfold processItem
  dsimp only
  split_ifs <;> rfl

/-- The format map after one loop iteration. -/
theorem processItem_format (acc : StatsAcc) (i : DiscogsCollectionItem) :
    (processItem acc i).formatBreakdown =
      (i.basic_information.formats.map DiscogsFormat.name).foldl bump acc.formatBreakdown := by
  unfold processItem
  dsimp only
  split_ifs <;> rfl

/-- The label map after one loop iteration. -/
theorem processItem_label (acc : StatsAcc) (i : DiscogsCollectionItem) :
    (processItem acc i).labelBreakdown =
      (i.basic_information.labels.map DiscogsLabel.name).foldl bump acc.labelBreakdown := by
  unfold processItem
  dsimp only
  split_ifs <;> rfl

/-- The running rating sum after one loop iteration. -/
theorem processItem_totalRating (acc : StatsAcc) (i : DiscogsCollectionItem) :
    (processItem acc i).totalRating =
      if 0 < i.rating then acc.totalRating + i.rating else acc.totalRating := by
  unfold processItem
  dsimp only
  split_ifs <;> rfl

/-- The running rated count after one loop iteration. -/
theorem processItem_ratedCount (acc : StatsAcc) (i : DiscogsCollectionItem) :
    (processItem acc i).ratedCount =
      if 0 < i.rating then acc.ratedCount + 1 else acc.ratedCount := by
  unfold processItem
  dsimp only
  split_ifs <;> rfl

/-- The genre map after the whole loop counts genre occurrences. -/
theorem foldl_processItem_genre (l : List DiscogsCollectionItem) :
    ∀ (acc : StatsAcc) (g : String),
      (l.foldl processItem acc).genreBreakdown g = acc.genreBreakdown g + genreOccurrences l g := by
  induction l with
  | nil => intro acc g; simp [genreOccurrences]
  | cons i l ih =>
    intro acc g
    rw [List.foldl_cons, ih, processItem_genre, foldl_bump_apply]
    simp [genreOccurrences]
    omega

/-- The format map after the whole loop counts format-name occurrences. -/
theorem foldl_processItem_format (l : List DiscogsCollectionItem) :
    ∀ (acc : StatsAcc) (g : String),
      (l.foldl processItem acc).formatBreakdown g = acc.formatBreakdown g + formatOccurrences l g := by
  induction l with
  | nil => intro acc g; simp [formatOccurrences]
  | cons i l ih =>
    intro acc g
    rw [List.foldl_cons, ih, processItem_format, foldl_bump_apply]
    simp [formatOccurrences]
    omega

/-- The label map after the whole loop counts label-name occurrences. -/
theorem foldl_processItem_label (l : List DiscogsCollectionItem) :
    ∀ (acc : StatsAcc) (g : String),
      (l.foldl processItem acc).labelBreakdown g = acc.labelBreakdown g + labelOccurrences l g := by
  induction l with
  | nil => intro acc g; simp [labelOccurrences]
  | cons i l ih =>
    intro acc g
    rw [List.foldl_cons, ih, processItem_label, foldl_bump_apply]
    simp [labelOccurrences]
    omega

/-- The decade map after the whole loop counts items with a truthy year
falling in each bucket. -/
theorem foldl_processItem_decade (l : List DiscogsCollectionItem) :
    ∀ (acc : StatsAcc) (d : String),
      (l.foldl processItem acc).decadeBreakdown d = acc.decadeBreakdown d + decadeCount l d := by
  induction l with
  | nil => intro acc d; simp [decadeCount]
  | cons i l ih =>
    intro acc d
    rw [List.foldl_cons, ih, processItem_decade]
    by_cases hy : i.basic_information.year = 0
    · simp [decadeCount, List.countP_cons, hy]
    · by_cases hd : d = decadeKey i.basic_information.year
      · simp [decadeCount, List.countP_cons, hy, hd, bump]
        omega
      · simp [decadeCount, List.countP_cons, hy, hd, bump, Ne.symm hd]

/-- The running rating sum after the whole loop is the sum of the
positive ratings. -/
theorem foldl_processItem_totalRating (l : List DiscogsCollectionItem) :
    ∀ acc : StatsAcc,
      (l.foldl processItem acc).totalRating = acc.totalRating + ratedSumOf l := by
  induction l with
  | nil => intro acc; simp [ratedSumOf]
  | cons i l ih =>
    intro acc
    rw [List.foldl_cons, ih, processItem_totalRating]
    by_cases h : 0 < i.rating
    · simp [ratedSumOf, List.filter_cons, h]
      ring
    · simp [ratedSumOf, List.filter_cons, h]

/-- The running rated count after the whole loop is the number of
positively rated items. -/
theorem foldl_processItem_ratedCount (l : List DiscogsCollectionItem) :
    ∀ acc : StatsAcc,
      (l.foldl processItem acc).ratedCount = acc.ratedCount + ratedCountOf l := by
  induction l with
  | nil => intro acc; simp [ratedCountOf]
  | cons i l ih =>
    intro acc
    rw [List.foldl_cons, ih, processItem_ratedCount]
    by_cases h : 0 < i.rating
    · simp [ratedCountOf, List.countP_cons, h]
      omega
    · simp [ratedCountOf, List.countP_cons, h]

/-- First item of the spec's stats-determinism example:
year 1969, genres [Rock], formats [Vinyl], rating 5. -/
def statsExampleItem1 : DiscogsCollectionItem :=
  { rating := 5
    basic_information :=
      { year := 1969, genres := ["Rock"], formats := [{ name := "Vinyl" }], labels := [] } }

/-- Second item of the spec's stats-determinism example:
year 1973, genres [Rock], formats [Vinyl], rating 4. -/
def statsExampleItem2 : DiscogsCollectionItem :=
  { rating := 4
    basic_information :=
      { year := 1973, genres := ["Rock"], formats := [{ name := "Vinyl" }], labels := [] } }

/-- An item whose year field is 0 (unknown year, falsy in the source)
with no tags and no rating. -/
def yearZeroItem : DiscogsCollectionItem :=
  { rating := 0
    basic_information := { year := 0, genres := [], formats := [], labels := [] } }

/-- Totals of computeStatsFromReleases, characterized over every input
list: totalReleases is the list length, ratedReleases the number of
positively rated items, averageRating the sum of positive ratings over
their count (0 when none). -/
theorem computeStats_totals_spec (l : List DiscogsCollectionItem) :
    (computeStatsFromReleases l).totalReleases = l.length ∧
    (computeStatsFromReleases l).ratedReleases = ratedCountOf l ∧
    (computeStatsFromReleases l).averageRating =
      (if 0 < ratedCountOf l then ratedSumOf l / (ratedCountOf l : Rat) else 0) := by
  unfold computeStatsFromReleases
  dsimp only
  rw [foldl_processItem_ratedCount, foldl_processItem_totalRating]
  simp

/-- On the spec's two-item example, the positive-rating count is 2. -/
theorem ratedCountOf_example :
    ratedCountOf [statsExampleItem1, statsExampleItem2] = 2 := by
  decide

/-- On the spec's two-item example, the positive-rating sum is 9. -/
theorem ratedSumOf_example :
    ratedSumOf [statsExampleItem1, statsExampleItem2] = 9 := by
  norm_num [ratedSumOf, List.filter_cons, statsExampleItem1, statsExampleItem2]

/-- C7: for every item list, computeStatsFromReleases returns
totalReleases equal to the length of the list, ratedReleases equal to
the number of items with a strictly positive rating, and averageRating
equal to the sum of those positive ratings divided by their count (0
when no item is rated); on the spec's two-item example the result is
totalReleases 2, averageRating 9/2 = 4.5, ratedReleases 2. (The claim's
totalItems / ratedItemCount are the source fields totalReleases /
ratedReleases.) -/
theorem C7_computeStats_totals :
    (∀ l : List DiscogsCollectionItem,
      (computeStatsFromReleases l).totalReleases = l.length ∧
      (computeStatsFromReleases l).ratedReleases = ratedCountOf l ∧
      (computeStatsFromReleases l).averageRating =
        (if 0 < ratedCountOf l then ratedSumOf l / (ratedCountOf l : Rat) else 0)) ∧
    (computeStatsFromReleases [statsExampleItem1, statsExampleItem2]).totalReleases = 2 ∧
    (computeStatsFromReleases [statsExampleItem1, statsExampleItem2]).averageRating = 9 / 2 ∧
    (computeStatsFromReleases [statsExampleItem1, statsExampleItem2]).ratedReleases = 2 := by
  have hex := computeStats_totals_spec [statsExampleItem1, statsExampleItem2]
  refine ⟨computeStats_totals_spec, hex.1, ?_, ?_⟩
  · rw [hex.2.2, ratedCountOf_example, ratedSumOf_example]
    norm_num
  · rw [hex.2.1, ratedCountOf_example]

/-- C8 counterexample: the claim as stated increments a decade bucket
for every item, so on the single year-0 item it demands
decadeBreakdown (decadeKey 0) = 1; the code skips items whose year is
falsy and yields 0. -/
theorem C8_counterexample :
    ¬ ((computeStatsFromReleases [yearZeroItem]).decadeBreakdown (decadeKey 0) =
        [yearZeroItem].countP
          (fun i => decide (decadeKey i.basic_information.year = decadeKey 0))) := by
  decide

/-- C8 (amended): for every item list and key, the genre, format-name
and label-name breakdowns count tag occurrences of that key across all
items (an item with multiple tags contributes once per tag), and the
decade breakdown at a bucket counts the items with a truthy (nonzero)
year whose bucket floor(year/10)*10 matches; items with year 0 or a
missing year contribute to no decade bucket. -/
theorem C8_breakdowns (l : List DiscogsCollectionItem) (k : String) :
    (computeStatsFromReleases l).genreBreakdown k = genreOccurrences l k ∧
    (computeStatsFromReleases l).formatBreakdown k = formatOccurrences l k ∧
    (computeStatsFromReleases l).labelBreakdown k = labelOccurrences l k ∧
    (computeStatsFromReleases l).decadeBreakdown k = decadeCount l k := by
  unfold computeStatsFromReleases
  dsimp only
  rw [foldl_processItem_genre, foldl_processItem_format, foldl_processItem_label,
    foldl_processItem_decade]
  simp

/-- C10: the totalValue field of the stats record is initialized to zero
and never updated, so it is 0 for every input list. -/
theorem C10_totalValue_zero : ∀ l : List DiscogsCollectionItem,
    (computeStatsFromReleases l).totalValue = 0 := by
  intro l
  rfl

/-- Characterization of the page loop against a well-behaved upstream
reporting P total pages: starting from page c with c <= min P maxPages
(write n for the remaining page count minus one), the loop fetches
exactly pages c, c+1, ..., min P maxPages in order, appends their items
in page order, and finishes with totalPages = min P maxPages. -/
theorem fetchPagesGo_const (pageItems : Nat → List DiscogsCollectionItem)
    (P I maxPages : Nat) :
    ∀ (n c : Nat) (acc : List DiscogsCollectionItem) (tr : List PageEv),
      c + n = min P maxPages → 1 ≤ c →
      fetchPagesGo (mkUpstream pageItems P I) maxPages c acc tr =
        (acc ++ (List.range' c (n + 1)).flatMap pageItems,
         min P maxPages,
         tr ++ (List.range' c (n + 1)).flatMap evPair) := by
  intro n
  induction n with
  | zero =>
    intro c acc tr hc h1
    rw [fetchPagesGo]
    have hcond : ¬ (c + 1 ≤ min (mkUpstream pageItems P I c).pagination.pages maxPages) := by
      simp only [mkUpstream]
      omega
    rw [dif_neg hcond]
    simp [mkUpstream, evPair]
  | succ n ih =>
    intro c acc tr hc h1
    rw [fetchPagesGo]
    have hcond : c + 1 ≤ min (mkUpstream pageItems P I c).pagination.pages maxPages := by
      simp only [mkUpstream]
      omega
    rw [dif_pos hcond]
    rw [ih (c + 1) _ _ (by simp only [mkUpstream] at hcond ⊢; omega) (by omega)]
    simp [mkUpstream, evPair, List.range'_succ]

/-- The pages named by the req events of a trace, in trace order. -/
def reqPages (t : List PageEv) : List Nat :=
  t.filterMap (fun ev =>
    match ev with
    | PageEv.req p => some p
    | PageEv.resp _ => none)

/-- The req events of the canonical sequential trace over a page list
name exactly those pages, in the same order. -/
theorem reqPages_flatMap_evPair (l : List Nat) :
    reqPages (l.flatMap evPair) = l := by
  induction l with
  | nil => rfl
  | cons p l ih =>
    simp only [List.flatMap_cons, reqPages, List.filterMap_append] at ih ⊢
    simp [evPair, ih]

/-- fetchAllPages against a well-behaved upstream reporting P pages, for
P >= 1 and maxPages >= 1: writing T = min P maxPages, the loop fetches
pages 1..T, the response carries their concatenated items with
pagination rewritten to pages = T, page = 1, per_page = items = item
count, the wasTruncated log-flag is computed from T and the item count,
and the trace is the canonical sequential one over pages 1..T. -/
theorem fetchAllPages_const (pageItems : Nat → List DiscogsCollectionItem)
    (P I maxPages : Nat) (hP : 1 ≤ P) (hM : 1 ≤ maxPages) :
    fetchAllPages (mkUpstream pageItems P I) maxPages =
      ({ pagination :=
          { pages := min P maxPages
            page := 1
            per_page := ((List.range' 1 (min P maxPages)).flatMap pageItems).length
            items := ((List.range' 1 (min P maxPages)).flatMap pageItems).length }
         releases := (List.range' 1 (min P maxPages)).flatMap pageItems },
       wasTruncated (min P maxPages) ((List.range' 1 (min P maxPages)).flatMap pageItems).length,
       (List.range' 1 (min P maxPages)).flatMap evPair) := by
  have hT : 1 ≤ min P maxPages := le_min hP hM
  have h := fetchPagesGo_const pageItems P I maxPages (min P maxPages - 1) 1 [] []
    (by omega) (by omega)
  rw [Nat.sub_add_cancel hT] at h
  unfold fetchAllPages
  rw [h]
  simp

/-- C3: against an upstream reporting P >= 1 total pages and with
maxPages >= 1, the fetch closure of getCompleteCollection performs
exactly min P maxPages page fetches, for pages 1, 2, ..., min P maxPages
in increasing order (List.range' 1 T is that ascending list), and the
returned aggregate's items are the concatenation of the fetched pages'
item lists in page order. -/
theorem C3_pages_and_concatenation (pageItems : Nat → List DiscogsCollectionItem)
    (P I maxPages : Nat) (hP : 1 ≤ P) (hM : 1 ≤ maxPages) :
    (fetchAllPages (mkUpstream pageItems P I) maxPages).1.releases =
      (List.range' 1 (min P maxPages)).flatMap pageItems ∧
    reqPages (fetchAllPages (mkUpstream pageItems P I) maxPages).2.2 =
      List.range' 1 (min P maxPages) ∧
    (reqPages (fetchAllPages (mkUpstream pageItems P I) maxPages).2.2).length =
      min P maxPages := by
  rw [fetchAllPages_const pageItems P I maxPages hP hM]
  refine ⟨rfl, reqPages_flatMap_evPair _, ?_⟩
  rw [reqPages_flatMap_evPair]
  simp

/-- C3 witness: a concrete instance — upstream reporting 3 pages,
maxPages 5, every page holding the two example items. -/
theorem C3_pages_and_concatenation_witness :
    (fetchAllPages (mkUpstream (fun _ => [statsExampleItem1]) 3 0) 5).1.releases =
      (List.range' 1 (min 3 5)).flatMap (fun _ => [statsExampleItem1]) ∧
    reqPages (fetchAllPages (mkUpstream (fun _ => [statsExampleItem1]) 3 0) 5).2.2 =
      List.range' 1 (min 3 5) ∧
    (reqPages (fetchAllPages (mkUpstream (fun _ => [statsExampleItem1]) 3 0) 5).2.2).length =
      min 3 5 :=
  C3_pages_and_concatenation (fun _ => [statsExampleItem1]) 3 0 5 (by omega) (by omega)

/-- C6: against a well-behaved upstream (reporting P >= 1 pages,
maxPages >= 1), the aggregate built on a cache miss has its pagination
rewritten: page = 1, per_page and items both equal to the number of
concatenated items, and pages equal to the number of pages actually
fetched (the number of req events of the trace). -/
theorem C6_pagination_rewritten (pageItems : Nat → List DiscogsCollectionItem)
    (P I maxPages : Nat) (hP : 1 ≤ P) (hM : 1 ≤ maxPages) :
    (fetchAllPages (mkUpstream pageItems P I) maxPages).1.pagination.page = 1 ∧
    (fetchAllPages (mkUpstream pageItems P I) maxPages).1.pagination.per_page =
      (fetchAllPages (mkUpstream pageItems P I) maxPages).1.releases.length ∧
    (fetchAllPages (mkUpstream pageItems P I) maxPages).1.pagination.items =
      (fetchAllPages (mkUpstream pageItems P I) maxPages).1.releases.length ∧
    (fetchAllPages (mkUpstream pageItems P I) maxPages).1.pagination.pages =
      (reqPages (fetchAllPages (mkUpstream pageItems P I) maxPages).2.2).length := by
  rw [fetchAllPages_const pageItems P I maxPages hP hM]
  refine ⟨rfl, rfl, rfl, ?_⟩
  rw [reqPages_flatMap_evPair]
  simp

/-- C6 witness: the concrete instance with 2 reported pages of one item
each and maxPages 25. -/
theorem C6_pagination_rewritten_witness :
    (fetchAllPages (mkUpstream (fun _ => [statsExampleItem2]) 2 0) 25).1.pagination.page = 1 ∧
    (fetchAllPages (mkUpstream (fun _ => [statsExampleItem2]) 2 0) 25).1.pagination.per_page =
      (fetchAllPages (mkUpstream (fun _ => [statsExampleItem2]) 2 0) 25).1.releases.length ∧
    (fetchAllPages (mkUpstream (fun _ => [statsExampleItem2]) 2 0) 25).1.pagination.items =
      (fetchAllPages (mkUpstream (fun _ => [statsExampleItem2]) 2 0) 25).1.releases.length ∧
    (fetchAllPages (mkUpstream (fun _ => [statsExampleItem2]) 2 0) 25).1.pagination.pages =
      (reqPages (fetchAllPages (mkUpstream (fun _ => [statsExampleItem2]) 2 0) 25).2.2).length :=
  C6_pagination_rewritten (fun _ => [statsExampleItem2]) 2 0 25 (by omega) (by omega)

/-- C9: against an upstream whose page 1 reports 1 total page and
carries no items, the fetch closure succeeds, performs exactly one page
fetch (the trace is req 1 then resp 1), and returns the empty,
non-truncated aggregate (the wasTruncated log-flag is false and the
pagination describes 1 page of 0 items). -/
theorem C9_empty_collection (upstream : Nat → DiscogsCollectionResponse) (maxPages : Nat)
    (hM : 1 ≤ maxPages)
    (hpages : (upstream 1).pagination.pages = 1)
    (hitems : (upstream 1).releases = []) :
    fetchAllPages upstream maxPages =
      ({ pagination := { pages := 1, page := 1, per_page := 0, items := 0 }, releases := [] },
       false,
       [PageEv.req 1, PageEv.resp 1]) := by
  unfold fetchAllPages
  rw [fetchPagesGo]
  have hcond : ¬ (1 + 1 ≤ min (upstream 1).pagination.pages maxPages) := by
    rw [hpages]
    omega
  rw [dif_neg hcond]
  simp [hpages, hitems, evPair, wasTruncated, Nat.min_eq_left hM]

/-- C9 witness: the concrete empty upstream. -/
theorem C9_empty_collection_witness :
    fetchAllPages (mkUpstream (fun _ => []) 1 0) 25 =
      ({ pagination := { pages := 1, page := 1, per_page := 0, items := 0 }, releases := [] },
       false,
       [PageEv.req 1, PageEv.resp 1]) :=
  C9_empty_collection (mkUpstream (fun _ => []) 1 0) 25 (by omega) rfl rfl

/-- A full page of 100 items, as the upstream returns for a collection
larger than the requested page size. -/
def hundredItems : List DiscogsCollectionItem := List.replicate 100 yearZeroItem

/-- C2 evaluation at the failing input of the claim: maxPages = 2
against an upstream reporting 5 total pages of 100 items each. The loop
stops after 2 pages (200 items) as intended, but the wasTruncated
log-flag of line 240 — totalPages < ceil(items/100) — evaluates to
false even though 5 > 2, so the truncation log never fires; and the
response assembled at lines 246-255 carries no truncated field at all,
only the rewritten pagination shown here. -/
theorem C2_truncation_flag_not_set :
    (fetchAllPages (mkUpstream (fun _ => hundredItems) 5 500) 2).2.1 = false ∧
    (fetchAllPages (mkUpstream (fun _ => hundredItems) 5 500) 2).1.releases.length = 200 ∧
    (fetchAllPages (mkUpstream (fun _ => hundredItems) 5 500) 2).1.pagination.pages = 2 ∧
    5 > 2 := by
  have h := fetchAllPages_const (fun _ => hundredItems) 5 500 2 (by omega) (by omega)
  rw [h]
  have hlen : ((List.range' 1 (min 5 2)).flatMap fun _ => hundredItems).length = 200 := by
    have h100 : hundredItems.length = 100 := List.length_replicate 100 yearZeroItem
    rw [show List.range' 1 (min 5 2) = [1, 2] from rfl]
    rw [List.flatMap_cons, List.flatMap_cons, List.flatMap_nil]
    rw [List.length_append, List.length_append, h100, List.length_nil]
  rw [hlen]
  refine ⟨?_, rfl, rfl, by omega⟩
  simp [wasTruncated]

/-- True exactly on req events. -/
def isReqEv : PageEv → Bool
  | PageEv.req _ => true
  | PageEv.resp _ => false

/-- True exactly on resp events. -/
def isRespEv : PageEv → Bool
  | PageEv.req _ => false
  | PageEv.resp _ => true

/-- Against ANY upstream, the trace of the page loop starting at page c
is the canonical strictly sequential one over some k >= 1 consecutive
pages c, c+1, ...: each request is issued only after the previous
response arrived, because the loop body awaits each page before the
next iteration. -/
theorem fetchPagesGo_trace_shape (upstream : Nat → DiscogsCollectionResponse)
    (maxPages : Nat) :
    ∀ (fuel c : Nat) (acc : List DiscogsCollectionItem) (tr : List PageEv),
      maxPages + 1 - c ≤ fuel →
      ∃ k, 1 ≤ k ∧
        (fetchPagesGo upstream maxPages c acc tr).2.2 =
          tr ++ (List.range' c k).flatMap evPair := by
  intro fuel
  induction fuel with
  | zero =>
    intro c acc tr hfuel
    rw [fetchPagesGo]
    have hcond : ¬ (c + 1 ≤ min (upstream c).pagination.pages maxPages) := by
      have := Nat.min_le_right (upstream c).pagination.pages maxPages
      omega
    rw [dif_neg hcond]
    exact ⟨1, le_refl 1, by simp [evPair]⟩
  | succ fuel ih =>
    intro c acc tr hfuel
    rw [fetchPagesGo]
    by_cases hcond : c + 1 ≤ min (upstream c).pagination.pages maxPages
    · rw [dif_pos hcond]
      have hle : min (upstream c).pagination.pages maxPages ≤ maxPages :=
        Nat.min_le_right _ _
      obtain ⟨k, hk1, hk⟩ := ih (c + 1) (acc ++ (upstream c).releases) (tr ++ evPair c)
        (by omega)
      refine ⟨k + 1, by omega, ?_⟩
      rw [hk, List.range'_succ, List.flatMap_cons]
      simp [evPair]
    · rw [dif_neg hcond]
      exact ⟨1, le_refl 1, by simp [evPair]⟩

/-- Every prefix of the canonical sequential trace over consecutive
pages starting at c satisfies: at most one request is outstanding at any
point, and a request for page p+1 (p at or past the start) can only
appear once the response for page p is already in the prefix. -/
theorem seqTrace_prefix_facts (k : Nat) :
    ∀ (c : Nat) (pre : List PageEv), pre <+: (List.range' c k).flatMap evPair →
      pre.countP isReqEv ≤ pre.countP isRespEv + 1 ∧
      (∀ p, c ≤ p → PageEv.req (p + 1) ∈ pre → PageEv.resp p ∈ pre) := by
  induction k with
  | zero =>
    intro c pre h
    simp only [List.range'_zero, List.flatMap_nil, List.prefix_nil] at h
    subst h
    simp
  | succ k ih =>
    intro c pre h
    rw [List.range'_succ, List.flatMap_cons] at h
    simp only [evPair, List.cons_append, List.nil_append] at h
    match pre with
    | [] => simp
    | [x] =>
      rw [List.cons_prefix_cons] at h
      obtain ⟨rfl, -⟩ := h
      refine ⟨by simp [isReqEv, isRespEv], ?_⟩
      intro p hp hmem
      simp only [List.mem_singleton] at hmem
      cases hmem
      omega
    | x :: y :: pre₂ =>
      rw [List.cons_prefix_cons] at h
      obtain ⟨rfl, h⟩ := h
      rw [List.cons_prefix_cons] at h
      obtain ⟨rfl, h⟩ := h
      obtain ⟨hcount, hord⟩ := ih (c + 1) pre₂ h
      constructor
      · simp only [List.countP_cons, isReqEv, isRespEv]
        simp
        omega
      · intro p hp hmem
        simp only [List.mem_cons] at hmem
        rcases hmem with heq | heq | hmem₂
        · cases heq
          omega
        · cases heq
        · by_cases hpc : p = c
          · subst hpc
            simp
          · have : c + 1 ≤ p := by omega
            have := hord p this hmem₂
            simp [this]

/-- C5: within the page-fetching loop, pages are fetched strictly
sequentially — for every prefix of the event trace (every instant of the
execution), the number of requests issued exceeds the number of
responses received by at most one (no two page fetches are ever in
flight concurrently), and a request for page p+1 appears only if the
response for page p has already been received. Holds against every
upstream and every maxPages. -/
theorem C5_sequential_fetching (upstream : Nat → DiscogsCollectionResponse)
    (maxPages : Nat) (pre : List PageEv)
    (hpre : pre <+: (fetchAllPages upstream maxPages).2.2) :
    pre.countP isReqEv ≤ pre.countP isRespEv + 1 ∧
    (∀ p, 1 ≤ p → PageEv.req (p + 1) ∈ pre → PageEv.resp p ∈ pre) := by
  obtain ⟨k, -, hk⟩ := fetchPagesGo_trace_shape upstream maxPages (maxPages + 1) 1 [] []
    (by omega)
  have htr : (fetchAllPages upstream maxPages).2.2 =
      (List.range' 1 k).flatMap evPair := by
    unfold fetchAllPages
    dsimp only
    rw [hk]
    simp
  rw [htr] at hpre
  exact seqTrace_prefix_facts k 1 pre hpre

/-- C5 witness: the full trace of a concrete two-page run is a prefix of
itself; the theorem yields the outstanding-request bound and that the
request for page 2 implies the response for page 1 is present. -/
theorem C5_sequential_fetching_witness :
    ((fetchAllPages (mkUpstream (fun _ => []) 2 0) 2).2.2).countP isReqEv ≤
      ((fetchAllPages (mkUpstream (fun _ => []) 2 0) 2).2.2).countP isRespEv + 1 ∧
    PageEv.resp 1 ∈ (fetchAllPages (mkUpstream (fun _ => []) 2 0) 2).2.2 := by
  have h := C5_sequential_fetching (mkUpstream (fun _ => []) 2 0) 2
    (fetchAllPages (mkUpstream (fun _ => []) 2 0) 2).2.2 List.prefix_rfl
  refine ⟨h.1, h.2 1 (le_refl 1) ?_⟩
  rw [fetchAllPages_const (fun _ => []) 2 0 2 (by omega) (by omega)]
  rw [show List.range' 1 (min 2 2) = [1, 2] from rfl]
  simp [evPair]

/-- If every page before failAt succeeds (reporting P total pages) and
page failAt, lying within 1..min P maxPages, rejects with e, the page
loop propagates exactly that error. -/
theorem fetchPagesGoE_fails {ε : Type} (pageItems : Nat → List DiscogsCollectionItem)
    (P I failAt maxPages : Nat) (e : ε) (hle : failAt ≤ min P maxPages) :
    ∀ (n c : Nat) (acc : List DiscogsCollectionItem),
      c + n = failAt → 1 ≤ c →
      fetchPagesGoE (failingUpstream pageItems P I failAt e) maxPages c acc =
        Except.error e := by
  intro n
  induction n with
  | zero =>
    intro c acc hc h1
    rw [fetchPagesGoE]
    simp only [failingUpstream]
    rw [if_pos (by omega)]
  | succ n ih =>
    intro c acc hc h1
    rw [fetchPagesGoE]
    simp only [failingUpstream]
    rw [if_neg (by omega)]
    dsimp only
    have hcond : c + 1 ≤ min (mkUpstream pageItems P I c).pagination.pages maxPages := by
      simp only [mkUpstream]
      omega
    rw [dif_pos hcond]
    exact ih (c + 1) _ (by omega) (by omega)

/-- The fallible fetch closure propagates a page failure unchanged. -/
theorem fetchAllPagesE_fails {ε : Type} (pageItems : Nat → List DiscogsCollectionItem)
    (P I failAt maxPages : Nat) (e : ε)
    (h1 : 1 ≤ failAt) (hle : failAt ≤ min P maxPages) :
    fetchAllPagesE (failingUpstream pageItems P I failAt e) maxPages = Except.error e := by
  unfold fetchAllPagesE
  rw [fetchPagesGoE_fails pageItems P I failAt maxPages e hle (failAt - 1) 1 [] (by omega)
    (by omega)]

/-- C4: if the upstream fetch of any page failAt within
1..min P maxPages fails with e, then (i) the whole aggregation fails
with that error propagated unchanged, (ii) running it through
getOrFetch on a store without the key writes nothing — the store is
returned unchanged, no partial aggregate is cached — and (iii) a
subsequent getOrFetch on the resulting state invokes the fetch function
again and returns its result, rather than replaying a cached error. -/
theorem C4_failure_not_cached {ε : Type} (pageItems : Nat → List DiscogsCollectionItem)
    (P I failAt maxPages : Nat) (e : ε) (key : String)
    (h1 : 1 ≤ failAt) (hle : failAt ≤ min P maxPages) :
    fetchAllPagesE (failingUpstream pageItems P I failAt e) maxPages = Except.error e ∧
    getOrFetch (CacheState.mk []) key
        (fun _ => fetchAllPagesE (failingUpstream pageItems P I failAt e) maxPages) =
      (Except.error e, CacheState.mk []) ∧
    (∀ F2 : Unit → Except ε DiscogsCollectionResponse,
      (getOrFetch
          (getOrFetch (CacheState.mk []) key
            (fun _ => fetchAllPagesE (failingUpstream pageItems P I failAt e) maxPages)).2
          key F2).1 = F2 ()) := by
  have hfail := fetchAllPagesE_fails pageItems P I failAt maxPages e h1 hle
  have hcall : getOrFetch (CacheState.mk []) key
      (fun _ => fetchAllPagesE (failingUpstream pageItems P I failAt e) maxPages) =
      (Except.error e, CacheState.mk []) := by
    unfold getOrFetch
    rw [hfail]
    rfl
  refine ⟨hfail, hcall, ?_⟩
  intro F2
  rw [hcall]
  unfold getOrFetch
  simp only [List.find?_nil]
  match hF2 : F2 () with
  | Except.ok v => rfl
  | Except.error e2 => rfl

/-- C4 witness: concrete failure of page 2 out of 3 reported pages with
maxPages 25, error string boom, under key c. -/
theorem C4_failure_not_cached_witness :
    fetchAllPagesE (failingUpstream (fun _ => []) 3 0 2 "boom") 25 =
      Except.error "boom" ∧
    getOrFetch (CacheState.mk []) "c"
        (fun _ => fetchAllPagesE (failingUpstream (fun _ => []) 3 0 2 "boom") 25) =
      (Except.error "boom", CacheState.mk []) ∧
    (∀ F2 : Unit → Except String DiscogsCollectionResponse,
      (getOrFetch
          (getOrFetch (CacheState.mk []) "c"
            (fun _ => fetchAllPagesE (failingUpstream (fun _ => []) 3 0 2 "boom") 25)).2
          "c" F2).1 = F2 ()) :=
  C4_failure_not_cached (fun _ => []) 3 0 2 25 "boom" "c" (by omega) (by omega)

/-- Once one caller has registered the pending future (id 0) under a
cache miss, every further arrival before the settle joins that same
future: the registry invariant is preserved by arrive, no further fetch
is issued, and every joined entry awaits future 0. -/
theorem foldl_arrive_inv {V : Type} (rest : List Nat) :
    ∀ st : FlightState V,
      st.pending = some 0 → st.nextId = 1 → st.fetchCount = 1 →
      (∀ cf ∈ st.joined, cf.2 = 0) →
      (rest.foldl arrive st).pending = some 0 ∧
      (rest.foldl arrive st).nextId = 1 ∧
      (rest.foldl arrive st).fetchCount = 1 ∧
      (∀ cf ∈ (rest.foldl arrive st).joined, cf.2 = 0) ∧
      (∀ cf ∈ st.joined, cf ∈ (rest.foldl arrive st).joined) ∧
      (∀ c ∈ rest, (c, 0) ∈ (rest.foldl arrive st).joined) := by
  induction rest with
  | nil =>
    intro st hp hn hf hj
    exact ⟨hp, hn, hf, hj, fun cf h => h, by simp⟩
  | cons c rest ih =>
    intro st hp hn hf hj
    have harr : arrive st c =
        { st with joined := (c, (0 : Nat)) :: st.joined } := by
      unfold arrive
      rw [hp]
    rw [List.foldl_cons, harr]
    obtain ⟨h1, h2, h3, h4, h5, h6⟩ := ih { st with joined := (c, (0 : Nat)) :: st.joined }
      hp hn hf
      (by
        intro cf hcf
        simp only [List.mem_cons] at hcf
        rcases hcf with rfl | hcf
        · rfl
        · exact hj cf hcf)
    refine ⟨h1, h2, h3, h4, ?_, ?_⟩
    · intro cf hcf
      exact h5 cf (List.mem_cons_of_mem _ hcf)
    · intro c' hc'
      simp only [List.mem_cons] at hc'
      rcases hc' with rfl | hc'
      · exact h5 (c', 0) (List.mem_cons_self _ _)
      · exact h6 c' hc'

/-- C1 (single-flight law, modelled from the spec since
src/utils/cache.ts is not in the snapshot): if every one of a nonempty
set of callers for the same category/key reaches the registry before
the in-flight fetch settles, starting from a cache miss, then the
underlying fetch function is invoked exactly once, and after the settle
every caller observes that single fetch's result. -/
theorem C1_single_flight {V : Type} (callers : List Nat) (v : V)
    (hne : callers ≠ []) :
    (callers.foldl arrive (flightInit V)).fetchCount = 1 ∧
    (∀ c ∈ callers,
      callerResult (settle (callers.foldl arrive (flightInit V)) v) c = some v) := by
  match callers with
  | [] => exact absurd rfl hne
  | c0 :: rest =>
    have harr0 : arrive (flightInit V) c0 =
        { pending := some 0, nextId := 1, fetchCount := 1,
          joined := [(c0, 0)], resolved := fun _ => none } := rfl
    rw [List.foldl_cons, harr0]
    obtain ⟨h1, h2, h3, h4, h5, h6⟩ := foldl_arrive_inv rest
      { pending := some (0 : Nat), nextId := 1, fetchCount := 1,
        joined := [(c0, 0)], resolved := fun _ => none }
      rfl rfl rfl (by intro cf hcf; simp only [List.mem_singleton] at hcf; rw [hcf])
    refine ⟨h3, ?_⟩
    intro c hc
    generalize hstf : rest.foldl arrive
      ({ pending := some (0 : Nat), nextId := 1, fetchCount := 1,
         joined := [(c0, 0)], resolved := fun _ => none } : FlightState V) = stf at h1 h4 h5 h6 ⊢
    have hsettle : settle stf v =
        { stf with
          pending := none
          resolved := fun i => if i = 0 then some v else stf.resolved i } := by
      unfold settle
      rw [h1]
    have hjmem : (c, (0 : Nat)) ∈ stf.joined := by
      simp only [List.mem_cons] at hc
      rcases hc with rfl | hc
      · exact h5 (c, 0) (List.mem_singleton_self _)
      · exact h6 c hc
    have hfind : ∃ cf, stf.joined.find? (fun cf => cf.1 = c) = some cf := by
      have hsome : (stf.joined.find? (fun cf => cf.1 = c)).isSome := by
        rw [List.find?_isSome]
        exact ⟨(c, 0), hjmem, by simp⟩
      exact Option.isSome_iff_exists.mp hsome
    obtain ⟨cf, hcf⟩ := hfind
    have hcf2 : cf.2 = 0 := h4 cf (List.mem_of_find?_eq_some hcf)
    unfold callerResult
    rw [hsettle]
    simp only
    rw [hcf]
    simp [hcf2]

/-- C1 witness: two concrete callers coalescing on one key under a
cache miss, the fetch settling with value 42. -/
theorem C1_single_flight_witness :
    ([7, 3].foldl arrive (flightInit Nat)).fetchCount = 1 ∧
    (∀ c ∈ [7, 3],
      callerResult (settle ([7, 3].foldl arrive (flightInit Nat)) 42) c = some 42) :=
  C1_single_flight [7, 3] 42 (by simp)
